import Mathlib

/-!
Verification of the AutotraderV3 core against its natural-language
specification.  The definitions below are a shallow embedding of the
repository's Python sources:

* `autotrader/strategies.py` — `BaseStrategy.next` and
  `BaseStrategy.notify_order`, embedded as a transition system on
  `StratState` driven by bar inputs and engine order callbacks;
* `autotrader/optimization.py` — `optimize_strategy_params_on_backtest`
  and its inner `objective`, embedded as an explicit trial loop;
* `autotrader/main.py` — the `nlargest`-based ranked view of trials;
* `autotrader/schemas.py` — the pydantic model configuration and its
  field-assignment semantics;
* `autotrader/events.py` — `Event.__str__`, the canonical rendering.

Machine reals (Python floats holding prices and portfolio values) are
modelled as rationals; the claims under study depend only on ordering
and exact arithmetic on the concrete inputs involved.
-/

namespace AutoTrader

/-- Decidable equality for `Except`, needed to evaluate concrete runs. -/
def exceptDecEq {ε α : Type} [DecidableEq ε] [DecidableEq α] :
    DecidableEq (Except ε α)
  | .error e, .error f =>
    if h : e = f then .isTrue (congrArg Except.error h)
    else .isFalse (fun hc => h (Except.error.inj hc))
  | .error _, .ok _ => .isFalse Except.noConfusion
  | .ok _, .error _ => .isFalse Except.noConfusion
  | .ok a, .ok b =>
    if h : a = b then .isTrue (congrArg Except.ok h)
    else .isFalse (fun hc => h (Except.ok.inj hc))

instance {ε α : Type} [DecidableEq ε] [DecidableEq α] :
    DecidableEq (Except ε α) := exceptDecEq

/-- Simulated wall-clock time of a bar (`self.datas[0].datetime.datetime(0)`). -/
abbrev Time := Nat

/-- One OHLCV bar, as logged by `BaseStrategy.next` into `self.data_log`. -/
structure Bar where
  timestamp : Time
  op : ℚ
  high : ℚ
  low : ℚ
  close : ℚ
  volume : ℚ
deriving DecidableEq

/-- The event taxonomy of `autotrader/events.py`, restricted to the data the
order-lifecycle claims depend on: `NoAction`, `BuyOrderSubmission`,
`SellOrderSubmission`, `BuyOrderExecution`, `SellOrderExecution`,
`BuyOrderRejection`, `SellOrderRejection`, with their `timestamp`,
`submission_id`, `size`, `ref_price` and `justification` fields. -/
inductive Ev
  | noAction (t : Time)
  | buySub (t : Time) (sid : Nat) (sz : Int) (rp : ℚ) (just : Option String)
  | sellSub (t : Time) (sid : Nat) (sz : Int) (rp : ℚ) (just : Option String)
  | buyExec (t : Time) (sid : Nat) (rp : ℚ) (sz : Int)
  | sellExec (t : Time) (sid : Nat) (rp : ℚ) (sz : Int)
  | buyRej (t : Time) (sid : Nat) (just : String)
  | sellRej (t : Time) (sid : Nat) (just : String)
deriving DecidableEq

/-- Order status constants of the backtrader engine, as tested by
`notify_order` (`order.Completed`, `order.Canceled`, `order.Margin`,
`order.Rejected`; the remaining statuses fall through every branch). -/
inductive OrderStatus
  | Submitted
  | Accepted
  | PartialFill
  | Completed
  | Canceled
  | Expired
  | Margin
  | Rejected
deriving DecidableEq

/-- The slice of a backtrader order object read by the strategy code:
its side (`order.isbuy()`), the `submission_id` attribute stamped on it by
`next` (`none` models the attribute being absent, the `hasattr` test in
`notify_order`), and `order.created.size` as set by the engine sizer. -/
structure OrderRef where
  isbuy : Bool
  submission_id : Option Nat
  createdSize : Int
deriving DecidableEq

/-- The mutable fields of a `BaseStrategy` instance (`strategies.py`
constructor) together with the broker-side position flag that
`self.position` reads.  The engine maintains `position`; it is set by a
completed buy fill and cleared by a completed sell fill. -/
structure StratState where
  data_log : List Bar
  event_log : List Ev
  order : Option OrderRef
  current_submission_id : Option Nat
  position : Bool
deriving DecidableEq

/-- `BaseStrategy.__init__`: empty logs, no pending order, no tracked id. -/
def initState : StratState := ⟨[], [], none, none, false⟩

/-- The effective submission id an order carries inside `notify_order`: the
`hasattr` test stamps `self.current_submission_id` onto an order object that
lacks the `submission_id` attribute. -/
def effSid (s : StratState) (ord : OrderRef) : Option Nat :=
  match ord.submission_id with
  | some k => some k
  | none => s.current_submission_id

/-- `BaseStrategy.notify_order`, straight from `strategies.py`.  The argument
`ord` is the order object delivered by the engine; `execPrice`/`execSize`
stand for `order.executed.price` / `order.executed.size`; `t` is the current
bar datetime (the code reads it for both the submission-time and
execution-time stamps).  If the order object carries no `submission_id`
attribute, the code stamps `self.current_submission_id` on it (`effSid`);
when that too is `None`, constructing the pydantic event with
`submission_id=None` raises a validation error, modelled as `Except.error`.
The broker position flag is folded into the `Completed` branches (engine
behavior: a completed buy opens the position, a completed sell closes it). -/
def notify_order (s : StratState) (ord : OrderRef) (status : OrderStatus)
    (execPrice : ℚ) (execSize : Int) (t : Time) : Except String StratState :=
  match status with
  | .Completed =>
    match effSid s ord with
    | none => .error "ValidationError: submission_id must be an integer"
    | some k =>
      if ord.isbuy then
        .ok { s with
                event_log := s.event_log ++ [Ev.buyExec t k execPrice execSize],
                order := none, position := true }
      else
        .ok { s with
                event_log := s.event_log ++ [Ev.sellExec t k execPrice execSize],
                current_submission_id := none, order := none, position := false }
  | .Canceled | .Margin | .Rejected =>
    let justif : String :=
      if status = OrderStatus.Margin then
        "Order rejected due to insufficient margin."
      else "Order canceled."
    match effSid s ord with
    | none => .error "ValidationError: submission_id must be an integer"
    | some k =>
      if ord.isbuy then
        .ok { s with event_log := s.event_log ++ [Ev.buyRej t k justif],
                     order := none }
      else
        .ok { s with event_log := s.event_log ++ [Ev.sellRej t k justif],
                     order := none }
  | _ => .ok { s with order := none }

/-- `BaseStrategy.next`, straight from `strategies.py`.  The buy/sell signals
are the `(bool, justification)` pairs returned by `should_buy`/`should_sell`
(both are computed before branching, so they are plain inputs here);
`freshSid` is the `uuid.uuid4().int` drawn in the buy branch; `stake` is
`self.order.created.size`, fixed by the engine sizer.  A sell signal with
`self.current_submission_id is None` raises `ValueError` before any event is
appended, modelled as `Except.error`. -/
def next (s : StratState) (b : Bar) (buySignal sellSignal : Bool × Option String)
    (freshSid : Nat) (stake : Int) : Except String StratState :=
  let s1 : StratState := { s with data_log := s.data_log ++ [b] }
  if s1.order.isSome then .ok s1
  else if !s1.position && buySignal.1 then
    .ok { s1 with
            order := some ⟨true, some freshSid, stake⟩,
            current_submission_id := some freshSid,
            event_log := s1.event_log ++
              [Ev.buySub b.timestamp freshSid stake b.close buySignal.2] }
  else if s1.position && sellSignal.1 then
    match s1.current_submission_id with
    | none => .error "Submission ID is missing for SellOrderSubmission."
    | some k =>
      .ok { s1 with
              order := some ⟨false, some k, stake⟩,
              event_log := s1.event_log ++
                [Ev.sellSub b.timestamp k stake b.close sellSignal.2] }
  else
    .ok { s1 with event_log := s1.event_log ++ [Ev.noAction b.timestamp] }

/-- One interaction with the strategy instance during a run: either the
engine advances a bar (calling `next`) or it delivers an order-status
callback (calling `notify_order`). -/
inductive StratInput
  | bar (b : Bar) (buySignal sellSignal : Bool × Option String)
      (freshSid : Nat) (stake : Int)
  | notify (ord : OrderRef) (status : OrderStatus)
      (execPrice : ℚ) (execSize : Int) (t : Time)
deriving DecidableEq

/-- Dispatch one input to the corresponding strategy method. -/
def step (s : StratState) : StratInput → Except String StratState
  | .bar b bs ss f st => next s b bs ss f st
  | .notify o st p sz t => notify_order s o st p sz t

/-- A whole strategy run: fold the engine's interaction sequence over the
freshly constructed strategy instance, propagating any raised exception. -/
def runStrategy (ins : List StratInput) : Except String StratState :=
  ins.foldlM step initState

/-- Final state of a run, defaulting to the initial state on error. -/
def finalState (ins : List StratInput) : StratState :=
  ((runStrategy ins).toOption).getD initState

/-- Recognizer for `NoAction` events. -/
def isNoActionEv : Ev → Bool
  | .noAction _ => true
  | _ => false

/-- A bar carrying only its index as timestamp (prices are irrelevant to the
flat-signal claims). -/
def mkBar (i : Nat) : Bar := ⟨i, 0, 0, 0, 0, 0⟩

/-- The interaction sequence of a flat-signal run: `n` bars on which both
`should_buy` and `should_sell` return `(False, None)`. -/
def flatInputs (n : Nat) : List StratInput :=
  (List.range n).map (fun i => StratInput.bar (mkBar i) (false, none) (false, none) 0 1)

/-- Justification of the last event of a run when it is a
`BuyOrderRejection`. -/
def lastBuyRejJust : Except String StratState → Option String
  | .ok s =>
    match s.event_log.getLast? with
    | some (Ev.buyRej _ _ j) => some j
    | _ => none
  | .error _ => none

/-- The `submission_id` of a `*Submission` event, `none` otherwise. -/
def subSid : Ev → Option Nat
  | .buySub _ k _ _ _ => some k
  | .sellSub _ k _ _ _ => some k
  | _ => none

/-- The `submission_id` of a `BuyOrderSubmission` event, `none` otherwise. -/
def buySubSid : Ev → Option Nat
  | .buySub _ k _ _ _ => some k
  | _ => none

/-- The `submission_id` of a `SellOrderSubmission` event, `none` otherwise. -/
def sellSubSid : Ev → Option Nat
  | .sellSub _ k _ _ _ => some k
  | _ => none

/-- The `submission_id` of a `*Execution` or `*Rejection` event. -/
def execRejSid : Ev → Option Nat
  | .buyExec _ k _ _ => some k
  | .sellExec _ k _ _ => some k
  | .buyRej _ k _ => some k
  | .sellRej _ k _ => some k
  | _ => none

/-- The submission ids of all `*Submission` events of a log, in order. -/
def subSids (log : List Ev) : List Nat := log.filterMap subSid

/-- The submission ids of all `BuyOrderSubmission` events of a log. -/
def buySubSids (log : List Ev) : List Nat := log.filterMap buySubSid

/-- Referential integrity of an event log: every event whose `needs` id is
set has at least one strictly earlier event providing the same id. -/
def PriorMatch (needs provides : Ev → Option Nat) (log : List Ev) : Prop :=
  ∀ i : Fin log.length, ∀ k, needs (log.get i) = some k →
    k ∈ (log.take i.1).filterMap provides

/-- Strategy-run states reachable under the engine contract: fresh submission
ids drawn by `uuid.uuid4().int` never collide with an id already in the log,
and the engine only delivers callbacks for orders whose stamped
`submission_id` was recorded by an earlier submission.  A run is any
interleaving of bar advances and order callbacks from the initial state. -/
inductive Reach : StratState → Prop
  | init : Reach initState
  | bar : ∀ (s s2 : StratState) (b : Bar) (bs ss : Bool × Option String)
      (f : Nat) (st : Int), Reach s → f ∉ subSids s.event_log →
      next s b bs ss f st = .ok s2 → Reach s2
  | notify : ∀ (s s2 : StratState) (ord : OrderRef) (status : OrderStatus)
      (p : ℚ) (sz : Int) (t : Time), Reach s →
      (∀ k, ord.submission_id = some k → k ∈ subSids s.event_log) →
      notify_order s ord status p sz t = .ok s2 → Reach s2

/-- The run invariant maintained by `next` and `notify_order`: execution and
rejection events refer to an earlier submission, sell submissions reuse the
id of an earlier buy submission, buy-submission ids are pairwise distinct,
and the tracked `current_submission_id` always names an earlier buy
submission. -/
def Inv (s : StratState) : Prop :=
  PriorMatch execRejSid subSid s.event_log ∧
  PriorMatch sellSubSid buySubSid s.event_log ∧
  (buySubSids s.event_log).Nodup ∧
  (∀ k, s.current_submission_id = some k → k ∈ buySubSids s.event_log)

/-- A full buy-fill-sell-fill cycle: submit a buy with fresh id 7, have the
engine fill it, submit the sell, have the engine fill that too. -/
def cexInputs : List StratInput :=
  [ StratInput.bar (mkBar 0) (true, some "buy signal") (false, none) 7 1,
    StratInput.notify ⟨true, some 7, 1⟩ OrderStatus.Completed 10 1 1,
    StratInput.bar (mkBar 2) (false, none) (true, some "sell signal") 9 1,
    StratInput.notify ⟨false, some 7, 1⟩ OrderStatus.Completed 11 (-1) 3 ]

/-- The state right after one bar that fires the buy condition. -/
def demoBuyState : StratState :=
  ⟨[mkBar 0], [Ev.buySub 0 7 1 0 (some "sig")], some ⟨true, some 7, 1⟩,
    some 7, false⟩

/-- One entry of a strategy's hyperparameter space, the dictionaries returned
by `get_hyperparam_space` (`strategies.py`): a `type` tag plus numeric bounds
or categorical choices. -/
structure ParamConfig where
  tag : String
  lo : ℚ
  hi : ℚ
  choices : List ℚ
deriving DecidableEq

/-- A hyperparameter space: parameter names with their sampling specs. -/
abbrev HyperSpace := List (String × ParamConfig)

/-- Exceptions that can escape a trial of the optimization loop: a
`ValueError` raised by the optuna `suggest_*` distributions on an invalid
spec, or an engine failure raised by the backtest. -/
inductive OptErr
  | config (msg : String)
  | sim (msg : String)
deriving DecidableEq

/-- The portfolio information `objective` reads off a
`run_coarse_backtest` output (`output["portfolio_info"]`). -/
structure BTOut where
  initial_portfolio : ℚ
  final_portfolio : ℚ
deriving DecidableEq

/-- The `trial_details` accumulator of
`optimize_strategy_params_on_backtest`, restricted to the per-trial lists
the claims under study inspect. -/
structure TrialDetails where
  params : List (List (String × ℚ))
  initial_portfolios : List ℚ
  final_portfolios : List ℚ
  returns : List ℚ
  relative_returns : List ℚ
deriving DecidableEq

/-- The accumulator as initialized before the study runs. -/
def emptyDetails : TrialDetails := ⟨[], [], [], [], []⟩

/-- The parameter-construction loop at the top of `objective`
(`optimization.py` lines 61-74): for each space entry, dispatch on the
`type` tag, calling `trial.suggest_int` / `suggest_float` /
`suggest_categorical`.  The optuna distributions raise `ValueError` when
`low > high` or when the categorical choice set is empty; an entry whose
tag is none of the three known ones falls through every branch and is
silently skipped.  The sampled value is delivered by the sampler function
`sample`. -/
def buildTrialParams (space : HyperSpace) (sample : String → ℚ) :
    Except OptErr (List (String × ℚ)) :=
  space.foldlM
    (fun acc nc =>
      if nc.2.tag = "int" then
        if nc.2.hi < nc.2.lo then .error (.config "low > high")
        else .ok (acc ++ [(nc.1, sample nc.1)])
      else if nc.2.tag = "float" then
        if nc.2.hi < nc.2.lo then .error (.config "low > high")
        else .ok (acc ++ [(nc.1, sample nc.1)])
      else if nc.2.tag = "categorical" then
        if nc.2.choices.isEmpty then .error (.config "empty choices")
        else .ok (acc ++ [(nc.1, sample nc.1)])
      else .ok acc)
    []

/-- The `objective` closure of `optimize_strategy_params_on_backtest`:
build the trial's parameters, run the backtest, append the trial's details
to the accumulator, and return the absolute portfolio return
(`final_portfolio - initial_portfolio`).  There is no try/except anywhere:
an exception raised by the parameter construction or by the backtest
propagates, and nothing is appended for that trial. -/
def objective (space : HyperSpace) (sample : String → ℚ)
    (backtest : List (String × ℚ) → Except String BTOut)
    (td : TrialDetails) : Except OptErr (TrialDetails × ℚ) :=
  match buildTrialParams space sample with
  | .error e => .error e
  | .ok strategy_params =>
    match backtest strategy_params with
    | .error m => .error (.sim m)
    | .ok out =>
      let portfolio_return := out.final_portfolio - out.initial_portfolio
      .ok ({ params := td.params ++ [strategy_params],
             initial_portfolios :=
               td.initial_portfolios ++ [out.initial_portfolio],
             final_portfolios := td.final_portfolios ++ [out.final_portfolio],
             returns := td.returns ++ [portfolio_return],
             relative_returns := td.relative_returns ++
               [portfolio_return / out.initial_portfolio] },
           portfolio_return)

/-- `study.optimize(objective, n_trials=n)` with the default `catch=()`:
trials run sequentially; the first exception raised by `objective`
propagates out of `optimize`, aborting the study at that trial (the error
is tagged with the index of the trial that raised it).  On success the
per-trial objective values are collected in order. -/
def optimizeLoop (space : HyperSpace) (sample : Nat → String → ℚ)
    (backtest : List (String × ℚ) → Except String BTOut) :
    Nat → Nat → TrialDetails → List ℚ →
      Except (OptErr × Nat) (TrialDetails × List ℚ)
  | 0, _, td, vals => .ok (td, vals)
  | m + 1, i, td, vals =>
    match objective space (sample i) backtest td with
    | .error e => .error (e, i)
    | .ok (td2, v) =>
      optimizeLoop space sample backtest m (i + 1) td2 (vals ++ [v])

/-- `study.best_value` for a maximize study: the largest observed objective
value, absent when no trial completed. -/
def bestValue : List ℚ → Option ℚ
  | [] => none
  | v :: vs => some (vs.foldl max v)

/-- What `optimize_strategy_params_on_backtest` hands back on completion:
the accumulator, the objective values, the `trial_number` column built as
`range(n_trials)`, and the study's best value. -/
structure OptResult where
  trial_details : TrialDetails
  objective_values : List ℚ
  trial_numbers : List Nat
  best_value : Option ℚ
deriving DecidableEq

/-- `optimize_strategy_params_on_backtest` (`optimization.py`): run the
study, then assemble the results structure.  An exception escaping the
study propagates out of the whole call — no result is returned and the
partial accumulator is lost with the call frame. -/
def optimize_strategy_params_on_backtest (space : HyperSpace)
    (sample : Nat → String → ℚ)
    (backtest : List (String × ℚ) → Except String BTOut)
    (n_trials : Nat) : Except (OptErr × Nat) OptResult :=
  match optimizeLoop space sample backtest n_trials 0 emptyDetails [] with
  | .error e => .error e
  | .ok (td, vals) => .ok ⟨td, vals, List.range n_trials, bestValue vals⟩

/-- A backtest that fails with a `SimulationError`-style engine fault
exactly when the sampled parameter value is 2 — so, under the sampler that
returns the trial index, exactly on trial 2. -/
def simFailBacktest (ps : List (String × ℚ)) : Except String BTOut :=
  if ps = [("p", (2 : ℚ))] then .error "SimulationError: data feed exhausted"
  else .ok ⟨100, 101⟩

/-- A well-formed single-parameter hyperparameter space. -/
def cexSpace : HyperSpace := [("p", ⟨"int", 0, 10, []⟩)]

/-- A space whose only entry carries an unknown type tag. -/
def unknownTagSpace : HyperSpace := [("p", ⟨"bool", 0, 1, []⟩)]

/-- A backtest that always succeeds with a fixed 10-unit gain. -/
def constBacktest (_ : List (String × ℚ)) : Except String BTOut :=
  .ok ⟨100, 110⟩

/-- One row of the trial-results table: `(trial_index, portfolio_return)`. -/
abbrev TrialRow := Nat × ℚ

/-- The comparison underlying
`results_df.nlargest(len(results_df), "portfolio_return")` (`main.py`):
row `a` may precede row `b` when `a`'s return is at least `b`'s. -/
def retGe (a b : TrialRow) : Prop := b.2 ≤ a.2

instance : DecidableRel retGe :=
  fun a b => inferInstanceAs (Decidable (b.2 ≤ a.2))

instance : IsTotal TrialRow retGe :=
  ⟨fun a b => (le_total a.2 b.2).symm⟩

instance : IsTrans TrialRow retGe :=
  ⟨fun _ _ _ h1 h2 => le_trans h2 h1⟩

/-- `results_df.nlargest(len(results_df), "portfolio_return")` with the
default `keep="first"`: a stable sort of the rows, descending by the
return column, ties keeping their submission order — embedded as an
insertion sort under `retGe` (stable: an element is inserted before the
equal-valued elements that follow it). -/
def nlargestByReturn (rows : List TrialRow) : List TrialRow :=
  rows.insertionSort retGe

/-- The spec's ranking example: objectives `[5.0, -3.0, 5.0, 10.0]`
submitted in trial-index order. -/
def demoTrialRows : List TrialRow := [(0, 5), (1, -3), (2, 5), (3, 10)]

/-- Strict ranking order: strictly higher return first, ties broken by
strictly ascending trial index. -/
def rankStrict (a b : TrialRow) : Prop :=
  b.2 < a.2 ∨ (a.2 = b.2 ∧ a.1 < b.1)

/-- Rows listed in strictly ascending trial-index order. -/
def idxLt (a b : TrialRow) : Prop := a.1 < b.1

instance : DecidableRel idxLt :=
  fun a b => inferInstanceAs (Decidable (a.1 < b.1))

/-- pydantic model configuration, restricted to the keys that decide
assignment behavior.  pydantic's defaults: not frozen, assignment not
re-validated, aliases not populated by name. -/
structure PydConfig where
  frozen : Bool
  validate_assignment : Bool
  populate_by_name : Bool
deriving DecidableEq

/-- The default `model_config` a pydantic `BaseModel` starts from. -/
def pydDefault : PydConfig := ⟨false, false, false⟩

/-- `pydantic.ConfigDict(validate_assignment=..., populate_by_name=...)`:
builds a configuration value with those two keys set; `frozen` is not
among the keys passed anywhere in this repository. -/
def ConfigDict (validate_assignment populate_by_name : Bool) : PydConfig :=
  ⟨false, validate_assignment, populate_by_name⟩

/-- The class body of `BaseSchema` (`schemas.py`) evaluates
`ConfigDict(validate_assignment=True, populate_by_name=True)` as a bare
expression and discards the result — it is never assigned to
`model_config` — so the effective configuration of `BaseSchema`, hence of
`Event` and every event subtype, is pydantic's default. -/
def BaseSchema_model_config : PydConfig := pydDefault

/-- The configuration value built and then discarded by that bare
expression. -/
def BaseSchema_discarded_config : PydConfig := ConfigDict true true

/-- The fields of an `Order` event record (`events.py`): `timestamp`,
`submission_id`, `size`, `ref_price` and the optional `justification`. -/
structure OrderEventRec where
  timestamp : Nat
  submission_id : Nat
  size : Int
  ref_price : ℚ
  justification : Option String
deriving DecidableEq

/-- pydantic attribute assignment `event.timestamp = v` under configuration
`cfg`: it raises only when the model is frozen; otherwise the write
happens (`validate_assignment` controls only whether `v` is re-validated,
not whether the field is updated). -/
def assignTimestamp (cfg : PydConfig) (e : OrderEventRec) (v : Nat) :
    Except String OrderEventRec :=
  if cfg.frozen then .error "Instance is frozen"
  else .ok { e with timestamp := v }

/-- pydantic attribute assignment `event.submission_id = v`. -/
def assignSubmissionId (cfg : PydConfig) (e : OrderEventRec) (v : Nat) :
    Except String OrderEventRec :=
  if cfg.frozen then .error "Instance is frozen"
  else .ok { e with submission_id := v }

/-- pydantic attribute assignment `event.size = v`. -/
def assignSize (cfg : PydConfig) (e : OrderEventRec) (v : Int) :
    Except String OrderEventRec :=
  if cfg.frozen then .error "Instance is frozen"
  else .ok { e with size := v }

/-- pydantic attribute assignment `event.ref_price = v`. -/
def assignRefPrice (cfg : PydConfig) (e : OrderEventRec) (v : ℚ) :
    Except String OrderEventRec :=
  if cfg.frozen then .error "Instance is frozen"
  else .ok { e with ref_price := v }

/-- pydantic attribute assignment `event.justification = v`. -/
def assignJustification (cfg : PydConfig) (e : OrderEventRec)
    (v : Option String) : Except String OrderEventRec :=
  if cfg.frozen then .error "Instance is frozen"
  else .ok { e with justification := v }

/-- A concrete event record used in the mutability theorems. -/
def demoEventRec : OrderEventRec := ⟨0, 7, 1, 100, none⟩

/-- A second-resolution wall-clock timestamp, as held by the `timestamp`
field of an event. -/
structure PyDateTime where
  year : Nat
  month : Nat
  day : Nat
  hour : Nat
  minute : Nat
  second : Nat
deriving DecidableEq

/-- Zero-pad a number to two digits. -/
def pad2 (n : Nat) : String := if n < 10 then "0" ++ toString n else toString n

/-- Zero-pad a number to four digits. -/
def pad4 (n : Nat) : String :=
  if n < 10 then "000" ++ toString n
  else if n < 100 then "00" ++ toString n
  else if n < 1000 then "0" ++ toString n
  else toString n

/-- `datetime.isoformat()` at second resolution. -/
def PyDateTime.isoformat (d : PyDateTime) : String :=
  pad4 d.year ++ "-" ++ pad2 d.month ++ "-" ++ pad2 d.day ++ "T" ++
    pad2 d.hour ++ ":" ++ pad2 d.minute ++ ":" ++ pad2 d.second

/-- `str(datetime)`, which uses a space separator instead of `T`. -/
def PyDateTime.strRender (d : PyDateTime) : String :=
  pad4 d.year ++ "-" ++ pad2 d.month ++ "-" ++ pad2 d.day ++ " " ++
    pad2 d.hour ++ ":" ++ pad2 d.minute ++ ":" ++ pad2 d.second

/-- The Python values appearing in an event's `model_dump()`. -/
inductive PyVal
  | int (n : Int)
  | str (s : String)
  | dt (d : PyDateTime)
  | none_
deriving DecidableEq

/-- `f"{value}"`: `str()` of the value — no quotes around strings, `None`
for null. -/
def PyVal.render : PyVal → String
  | .int n => toString n
  | .str s => s
  | .dt d => d.strRender
  | .none_ => "None"

/-- Python `text.split(", ")`: cut at every occurrence of the two-character
separator, scanning left to right. -/
def splitCommaSpace : List Char → List (List Char)
  | [] => [[]]
  | [c] => [[c]]
  | c1 :: c2 :: rest =>
    if c1 = ',' ∧ c2 = ' ' then [] :: splitCommaSpace rest
    else
      match splitCommaSpace (c2 :: rest) with
      | [] => [[c1]]
      | chunk :: more => (c1 :: chunk) :: more

/-- Python `", ".join(fragments)`. -/
def joinCommaSpace : List (List Char) → List Char
  | [] => []
  | [x] => x
  | x :: y :: ys => x ++ ',' :: ' ' :: joinCommaSpace (y :: ys)

/-- Python string comparison: lexicographic by code point. -/
def charLe : List Char → List Char → Bool
  | [], _ => true
  | _ :: _, [] => false
  | a :: as2, b :: bs2 =>
    if a.toNat < b.toNat then true
    else if b.toNat < a.toNat then false
    else charLe as2 bs2

/-- Python `sorted(fragments)`: stable ascending sort under string
comparison. -/
def sortFragments (l : List (List Char)) : List (List Char) :=
  List.insertionSort (fun a b => charLe a b = true) l

/-- `Event.__str__` (`events.py`): render the `model_dump()` items other
than `timestamp` as `key=value`, join them with `", "`, then re-split the
joined text on `", "`, sort the fragments, re-join them, and wrap the
result with the class name and the `t=`-prefixed ISO timestamp. -/
def eventStr (className : String) (ts : PyDateTime)
    (dump : List (String × PyVal)) : String :=
  let attributes :=
    joinCommaSpace ((dump.filter (fun kv => kv.1 ≠ "timestamp")).map
      (fun kv => (kv.1 ++ "=" ++ kv.2.render).data))
  let attributes := joinCommaSpace (sortFragments (splitCommaSpace attributes))
  String.mk ((className ++ "(t=" ++ ts.isoformat ++ ", ").data ++
    attributes ++ [')'])

/-- Modelled from the spec: the rendering the specification describes —
class name, ISO timestamp, then every field except `timestamp` as a
`name=value` pair, in ascending sorted-by-name order. -/
def specEventStr (className : String) (ts : PyDateTime)
    (dump : List (String × PyVal)) : String :=
  let sortedPairs :=
    List.insertionSort (fun a b => charLe a.1.data b.1.data = true)
      (dump.filter (fun kv => kv.1 ≠ "timestamp"))
  String.mk ((className ++ "(t=" ++ ts.isoformat ++ ", ").data ++
    joinCommaSpace
      (sortedPairs.map (fun kv => (kv.1 ++ "=" ++ kv.2.render).data)) ++
    [')'])

/-- The `model_dump()` of a `BuyOrderRejection` whose justification
contains the separator `", "` (pydantic field order: parent fields first). -/
def commaDump : List (String × PyVal) :=
  [("timestamp", .dt ⟨2024, 12, 1, 0, 0, 0⟩),
   ("submission_id", .int 5),
   ("justification", .str "x, a")]

/-- The `model_dump()` of a `BuyOrderRejection` whose justification is free
of the separator. -/
def plainDump : List (String × PyVal) :=
  [("timestamp", .dt ⟨2024, 12, 1, 0, 0, 0⟩),
   ("submission_id", .int 5),
   ("justification", .str "insufficient funds")]

/-- The timestamp shared by the rendering examples. -/
def demoTs : PyDateTime := ⟨2024, 12, 1, 0, 0, 0⟩

end AutoTrader

namespace AutoTrader

/-- C3: in a state holding a position (`self.position` truthy), with a sell
signal and no pending order, a missing (`None`) `current_submission_id`
makes `next` raise `ValueError` — a programming-error-class exception —
and since the exception is raised before the append, no
`SellOrderSubmission` event is emitted. -/
theorem sell_without_entry_raises (s : StratState) (b : Bar)
    (bs ss : Bool × Option String) (f : Nat) (st : Int)
    (h1 : s.order = none) (h2 : s.position = true) (h3 : ss.1 = true)
    (h4 : s.current_submission_id = none) :
    next s b bs ss f st =
      .error "Submission ID is missing for SellOrderSubmission." := by
  simp [next, h1, h2, h3, h4]

/-- Witness for `sell_without_entry_raises` at a concrete state. -/
theorem sell_without_entry_raises_witness :
    next ⟨[], [], none, none, true⟩ (mkBar 0) (false, none) (true, none) 5 1 =
      .error "Submission ID is missing for SellOrderSubmission." :=
  sell_without_entry_raises ⟨[], [], none, none, true⟩ (mkBar 0)
    (false, none) (true, none) 5 1 rfl rfl rfl rfl

set_option maxRecDepth 100000 in
/-- C4: a 100-bar run of a strategy variant whose `should_buy` and
`should_sell` always return a false signal appends exactly 100 `NoAction`
events and no Order events; and in general, any bar on which neither
condition fires and no order is pending appends exactly one `NoAction`
event and nothing else. -/
theorem flat_signal_run_all_noaction :
    ((runStrategy (flatInputs 100)).isOk = true ∧
      (finalState (flatInputs 100)).event_log =
        (List.range 100).map (fun i => Ev.noAction i)) ∧
    (∀ (s : StratState) (b : Bar) (bs ss : Bool × Option String)
        (f : Nat) (st : Int),
      s.order = none → (!s.position && bs.1) = false →
      (s.position && ss.1) = false →
      next s b bs ss f st =
        .ok { s with data_log := s.data_log ++ [b],
                     event_log := s.event_log ++ [Ev.noAction b.timestamp] }) := by
  refine ⟨by decide, ?_⟩
  intro s b bs ss f st h1 h2 h3
  simp [next, h1, h2, h3]

/-- Witness for the general clause of `flat_signal_run_all_noaction`. -/
theorem flat_signal_run_all_noaction_witness :
    next initState (mkBar 3) (false, none) (false, none) 0 1 =
      .ok { initState with data_log := [mkBar 3],
                           event_log := [Ev.noAction 3] } :=
  flat_signal_run_all_noaction.2 initState (mkBar 3) (false, none) (false, none)
    0 1 rfl rfl rfl

/-- C7 (amended): on a buy-order callback with status `Margin`, the emitted
`BuyOrderRejection` carries the margin-specific justification, while the
statuses `Canceled` and `Rejected` both carry the same justification
"Order canceled." (a cancellation is not distinguished from an engine
rejection); in each case the pending-order slot is cleared, so with no
position opened the run is back to the flat state. -/
theorem buy_rejection_justifications (s : StratState) (ord : OrderRef)
    (p : ℚ) (sz : Int) (t : Time) (k : Nat)
    (hb : ord.isbuy = true) (hs : ord.submission_id = some k) :
    notify_order s ord .Margin p sz t =
      .ok { s with
              event_log := s.event_log ++
                [Ev.buyRej t k "Order rejected due to insufficient margin."],
              order := none } ∧
    notify_order s ord .Canceled p sz t =
      .ok { s with event_log := s.event_log ++ [Ev.buyRej t k "Order canceled."],
                   order := none } ∧
    notify_order s ord .Rejected p sz t =
      .ok { s with event_log := s.event_log ++ [Ev.buyRej t k "Order canceled."],
                   order := none } := by
  refine ⟨?_, ?_, ?_⟩ <;> simp [notify_order, effSid, hb, hs]

/-- Witness for `buy_rejection_justifications` at a concrete state. -/
theorem buy_rejection_justifications_witness :
    notify_order initState ⟨true, some 7, 1⟩ .Margin 0 0 2 =
      .ok { initState with
              event_log :=
                [Ev.buyRej 2 7 "Order rejected due to insufficient margin."],
              order := none } :=
  (buy_rejection_justifications initState ⟨true, some 7, 1⟩ 0 0 2 7 rfl rfl).1

/-- C7 counterexample: the justification emitted for an engine rejection
(status `Rejected`) is the very string emitted for a cancellation
(status `Canceled`), namely "Order canceled." — the justification does not
distinguish an engine rejection from a cancellation, contrary to the
claim. -/
theorem buy_rejection_cause_not_distinguished :
    lastBuyRejJust (notify_order initState ⟨true, some 7, 1⟩ .Rejected 0 0 2) =
      some "Order canceled." ∧
    lastBuyRejJust (notify_order initState ⟨true, some 7, 1⟩ .Canceled 0 0 2) =
      some "Order canceled." := by
  decide

/-- C10: `notify_order` unconditionally ends with `self.order = None`, so
after every order notification callback — whatever the reported status,
including the intermediate `Submitted` and `Accepted` — the pending-order
reference is `none`; and while an order is pending, `next` returns right
after logging the bar, appending no event and never consulting the buy/sell
signals.  Hence the pending guard holds only from a submission until the
next notification of any kind. -/
theorem order_cleared_after_any_notification :
    (∀ (s : StratState) (ord : OrderRef) (status : OrderStatus)
        (p : ℚ) (sz : Int) (t : Time) (s2 : StratState),
      notify_order s ord status p sz t = .ok s2 → s2.order = none) ∧
    (∀ (s : StratState) (b : Bar) (bs ss : Bool × Option String)
        (f : Nat) (st : Int),
      s.order.isSome = true →
      next s b bs ss f st = .ok { s with data_log := s.data_log ++ [b] }) := by
  constructor
  · intro s ord status p sz t s2 h
    simp only [notify_order] at h
    split at h
    all_goals (try split at h)
    all_goals (try split at h)
    all_goals first
      | (injection h with h2; subst h2; rfl)
      | injection h
  · intro s b bs ss f st h
    simp [next, h]

/-- A `BuyOrderSubmission` id is in particular a `*Submission` id. -/
lemma buySubSid_imp_subSid (e : Ev) (k : Nat) :
    buySubSid e = some k → subSid e = some k := by
  cases e <;> simp [buySubSid, subSid]

/-- Membership transfer from buy-submission ids to all submission ids. -/
lemma mem_subSids_of_mem_buySubSids {log : List Ev} {k : Nat}
    (h : k ∈ buySubSids log) : k ∈ subSids log := by
  rcases List.mem_filterMap.1 h with ⟨e, he, hk⟩
  exact List.mem_filterMap.2 ⟨e, he, buySubSid_imp_subSid e k hk⟩

/-- `PriorMatch` holds of the empty log. -/
lemma priorMatch_nil (n p : Ev → Option Nat) : PriorMatch n p [] := by
  intro i
  exact absurd i.2 (by simp)

/-- Appending an event preserves `PriorMatch`, provided the appended event's
`needs` id (if any) is provided somewhere in the old log. -/
lemma priorMatch_append {n p : Ev → Option Nat} {log : List Ev} {e : Ev}
    (h : PriorMatch n p log)
    (he : ∀ k, n e = some k → k ∈ log.filterMap p) :
    PriorMatch n p (log ++ [e]) := by
  intro i k hk
  rcases Nat.lt_or_ge i.1 log.length with hi | hi
  · have hgete : (log ++ [e]).get i = log.get ⟨i.1, hi⟩ := by
      simp [List.get_eq_getElem, List.getElem_append_left hi]
    have htake : (log ++ [e]).take i.1 = log.take i.1 :=
      List.take_append_of_le_length (Nat.le_of_lt hi)
    rw [hgete] at hk
    rw [htake]
    exact h ⟨i.1, hi⟩ k hk
  · have hlen : i.1 < log.length + 1 := by
      have h2 := i.2
      simpa using h2
    have hieq : i.1 = log.length := by omega
    have hgete : (log ++ [e]).get i = e := by
      rw [List.get_eq_getElem]
      exact List.getElem_concat_length log e i.1 hieq _
    have htake : (log ++ [e]).take i.1 = log := by
      rw [hieq]
      exact List.take_left log [e]
    rw [hgete] at hk
    rw [htake]
    exact he k hk

/-- The possible successful outcomes of `next`, as changes to the event log
and the tracked submission id. -/
lemma next_ok_cases {s s2 : StratState} {b : Bar} {bs ss : Bool × Option String}
    {f : Nat} {st : Int} (h : next s b bs ss f st = .ok s2) :
    (s2.event_log = s.event_log ∧
      s2.current_submission_id = s.current_submission_id) ∨
    (s2.event_log = s.event_log ++ [Ev.buySub b.timestamp f st b.close bs.2] ∧
      s2.current_submission_id = some f) ∨
    (∃ k, s.current_submission_id = some k ∧
      s2.event_log = s.event_log ++ [Ev.sellSub b.timestamp k st b.close ss.2] ∧
      s2.current_submission_id = some k) ∨
    (s2.event_log = s.event_log ++ [Ev.noAction b.timestamp] ∧
      s2.current_submission_id = s.current_submission_id) := by
  simp only [next] at h
  split at h
  · injection h with h2
    subst h2
    exact Or.inl ⟨rfl, rfl⟩
  · split at h
    · injection h with h2
      subst h2
      exact Or.inr (Or.inl ⟨rfl, rfl⟩)
    · split at h
      · split at h
        · injection h
        · rename_i k hk
          injection h with h2
          subst h2
          exact Or.inr (Or.inr (Or.inl ⟨k, hk, rfl, hk⟩))
      · injection h with h2
        subst h2
        exact Or.inr (Or.inr (Or.inr ⟨rfl, rfl⟩))

/-- The possible successful outcomes of `notify_order`, as changes to the
event log and the tracked submission id. -/
lemma notify_ok_cases {s s2 : StratState} {ord : OrderRef}
    {status : OrderStatus} {p : ℚ} {sz : Int} {t : Time}
    (h : notify_order s ord status p sz t = .ok s2) :
    (s2.event_log = s.event_log ∧
      s2.current_submission_id = s.current_submission_id) ∨
    (∃ k, effSid s ord = some k ∧
      ((s2.event_log = s.event_log ++ [Ev.buyExec t k p sz] ∧
          s2.current_submission_id = s.current_submission_id) ∨
       (s2.event_log = s.event_log ++ [Ev.sellExec t k p sz] ∧
          s2.current_submission_id = none) ∨
       (∃ j, s2.event_log = s.event_log ++ [Ev.buyRej t k j] ∧
          s2.current_submission_id = s.current_submission_id) ∨
       (∃ j, s2.event_log = s.event_log ++ [Ev.sellRej t k j] ∧
          s2.current_submission_id = s.current_submission_id))) := by
  cases status with
  | Completed =>
    simp only [notify_order] at h
    split at h
    · injection h
    · rename_i k hk
      split at h
      · injection h with h2
        subst h2
        exact Or.inr ⟨k, hk, Or.inl ⟨rfl, rfl⟩⟩
      · injection h with h2
        subst h2
        exact Or.inr ⟨k, hk, Or.inr (Or.inl ⟨rfl, rfl⟩)⟩
  | Canceled =>
    simp only [notify_order] at h
    split at h
    · injection h
    · rename_i k hk
      split at h
      · injection h with h2
        subst h2
        exact Or.inr ⟨k, hk, Or.inr (Or.inr (Or.inl ⟨_, rfl, rfl⟩))⟩
      · injection h with h2
        subst h2
        exact Or.inr ⟨k, hk, Or.inr (Or.inr (Or.inr ⟨_, rfl, rfl⟩))⟩
  | Margin =>
    simp only [notify_order] at h
    split at h
    · injection h
    · rename_i k hk
      split at h
      · injection h with h2
        subst h2
        exact Or.inr ⟨k, hk, Or.inr (Or.inr (Or.inl ⟨_, rfl, rfl⟩))⟩
      · injection h with h2
        subst h2
        exact Or.inr ⟨k, hk, Or.inr (Or.inr (Or.inr ⟨_, rfl, rfl⟩))⟩
  | Rejected =>
    simp only [notify_order] at h
    split at h
    · injection h
    · rename_i k hk
      split at h
      · injection h with h2
        subst h2
        exact Or.inr ⟨k, hk, Or.inr (Or.inr (Or.inl ⟨_, rfl, rfl⟩))⟩
      · injection h with h2
        subst h2
        exact Or.inr ⟨k, hk, Or.inr (Or.inr (Or.inr ⟨_, rfl, rfl⟩))⟩
  | Submitted =>
    simp only [notify_order] at h
    injection h with h2
    subst h2
    exact Or.inl ⟨rfl, rfl⟩
  | Accepted =>
    simp only [notify_order] at h
    injection h with h2
    subst h2
    exact Or.inl ⟨rfl, rfl⟩
  | PartialFill =>
    simp only [notify_order] at h
    injection h with h2
    subst h2
    exact Or.inl ⟨rfl, rfl⟩
  | Expired =>
    simp only [notify_order] at h
    injection h with h2
    subst h2
    exact Or.inl ⟨rfl, rfl⟩

/-- The invariant `Inv` holds of every reachable strategy-run state. -/
lemma inv_of_reach {s : StratState} (h : Reach s) : Inv s := by
  induction h with
  | init =>
    refine ⟨priorMatch_nil _ _, priorMatch_nil _ _, List.nodup_nil, ?_⟩
    intro k hk
    cases hk
  | bar s s2 b bs ss f st hr hf hstep ih =>
    obtain ⟨h1, h2, h3, h4⟩ := ih
    rcases next_ok_cases hstep with
      ⟨he, hc⟩ | ⟨he, hc⟩ | ⟨k0, hcs, he, hc⟩ | ⟨he, hc⟩
    · refine ⟨by rw [he]; exact h1, by rw [he]; exact h2, by rw [he]; exact h3, ?_⟩
      intro k hk
      rw [hc] at hk
      rw [he]
      exact h4 k hk
    · -- a BuyOrderSubmission with the fresh id was appended
      have hfb : f ∉ buySubSids s.event_log :=
        fun hmem => hf (mem_subSids_of_mem_buySubSids hmem)
      have hb : buySubSids (s.event_log ++
          [Ev.buySub b.timestamp f st b.close bs.2]) =
          buySubSids s.event_log ++ [f] := by
        simp [buySubSids, List.filterMap_append, buySubSid]
      refine ⟨?_, ?_, ?_, ?_⟩
      · rw [he]
        refine priorMatch_append h1 ?_
        intro k hk
        simp [execRejSid] at hk
      · rw [he]
        refine priorMatch_append h2 ?_
        intro k hk
        simp [sellSubSid] at hk
      · rw [he, hb]
        simp [List.nodup_append, h3, hfb]
      · intro k hk
        rw [hc] at hk
        injection hk with hk2
        subst hk2
        rw [he, hb]
        simp
    · -- a SellOrderSubmission reusing the tracked buy id was appended
      have hkb : k0 ∈ buySubSids s.event_log := h4 k0 hcs
      have hb : buySubSids (s.event_log ++
          [Ev.sellSub b.timestamp k0 st b.close ss.2]) =
          buySubSids s.event_log := by
        simp [buySubSids, List.filterMap_append, sellSubSid, buySubSid]
      refine ⟨?_, ?_, ?_, ?_⟩
      · rw [he]
        refine priorMatch_append h1 ?_
        intro k hk
        simp [execRejSid] at hk
      · rw [he]
        refine priorMatch_append h2 ?_
        intro k hk
        simp [sellSubSid] at hk
        subst hk
        exact hkb
      · rw [he, hb]
        exact h3
      · intro k hk
        rw [hc] at hk
        injection hk with hk2
        subst hk2
        rw [he, hb]
        exact hkb
    · -- a NoAction event was appended
      have hb : buySubSids (s.event_log ++ [Ev.noAction b.timestamp]) =
          buySubSids s.event_log := by
        simp [buySubSids, List.filterMap_append, buySubSid]
      refine ⟨?_, ?_, ?_, ?_⟩
      · rw [he]
        refine priorMatch_append h1 ?_
        intro k hk
        simp [execRejSid] at hk
      · rw [he]
        refine priorMatch_append h2 ?_
        intro k hk
        simp [sellSubSid] at hk
      · rw [he, hb]
        exact h3
      · intro k hk
        rw [hc] at hk
        rw [he, hb]
        exact h4 k hk
  | notify s s2 ord status p sz t hr hwf hstep ih =>
    obtain ⟨h1, h2, h3, h4⟩ := ih
    rcases notify_ok_cases hstep with ⟨he, hc⟩ | ⟨k, hcs, hrest⟩
    · refine ⟨by rw [he]; exact h1, by rw [he]; exact h2, by rw [he]; exact h3, ?_⟩
      intro k hk
      rw [hc] at hk
      rw [he]
      exact h4 k hk
    · -- the delivered order's effective id names an earlier submission
      have hks : k ∈ subSids s.event_log := by
        rcases hord : ord.submission_id with _ | k2
        · have hcsid : s.current_submission_id = some k := by
            simpa [effSid, hord] using hcs
          exact mem_subSids_of_mem_buySubSids (h4 k hcsid)
        · have hk2 : k2 = k := by
            simpa [effSid, hord] using hcs
          subst hk2
          exact hwf k2 hord
      rcases hrest with ⟨he, hc⟩ | ⟨he, hc⟩ | ⟨j, he, hc⟩ | ⟨j, he, hc⟩
      · -- a BuyOrderExecution was appended
        have heb : buySubSids (s.event_log ++ [Ev.buyExec t k p sz]) =
            buySubSids s.event_log := by
          simp [buySubSids, List.filterMap_append, buySubSid]
        refine ⟨?_, ?_, ?_, ?_⟩
        · rw [he]
          refine priorMatch_append h1 ?_
          intro k2 hk2
          simp [execRejSid] at hk2
          subst hk2
          exact hks
        · rw [he]
          refine priorMatch_append h2 ?_
          intro k2 hk2
          simp [sellSubSid] at hk2
        · rw [he, heb]
          exact h3
        · intro k2 hk2
          rw [hc] at hk2
          rw [he, heb]
          exact h4 k2 hk2
      · -- a SellOrderExecution was appended, the tracked id was reset
        refine ⟨?_, ?_, ?_, ?_⟩
        · rw [he]
          refine priorMatch_append h1 ?_
          intro k2 hk2
          simp [execRejSid] at hk2
          subst hk2
          exact hks
        · rw [he]
          refine priorMatch_append h2 ?_
          intro k2 hk2
          simp [sellSubSid] at hk2
        · rw [he]
          have heb : buySubSids (s.event_log ++ [Ev.sellExec t k p sz]) =
              buySubSids s.event_log := by
            simp [buySubSids, List.filterMap_append, buySubSid]
          rw [heb]
          exact h3
        · intro k2 hk2
          rw [hc] at hk2
          cases hk2
      · -- a BuyOrderRejection was appended
        have heb : buySubSids (s.event_log ++ [Ev.buyRej t k j]) =
            buySubSids s.event_log := by
          simp [buySubSids, List.filterMap_append, buySubSid]
        refine ⟨?_, ?_, ?_, ?_⟩
        · rw [he]
          refine priorMatch_append h1 ?_
          intro k2 hk2
          simp [execRejSid] at hk2
          subst hk2
          exact hks
        · rw [he]
          refine priorMatch_append h2 ?_
          intro k2 hk2
          simp [sellSubSid] at hk2
        · rw [he, heb]
          exact h3
        · intro k2 hk2
          rw [hc] at hk2
          rw [he, heb]
          exact h4 k2 hk2
      · -- a SellOrderRejection was appended
        have heb : buySubSids (s.event_log ++ [Ev.sellRej t k j]) =
            buySubSids s.event_log := by
          simp [buySubSids, List.filterMap_append, buySubSid]
        refine ⟨?_, ?_, ?_, ?_⟩
        · rw [he]
          refine priorMatch_append h1 ?_
          intro k2 hk2
          simp [execRejSid] at hk2
          subst hk2
          exact hks
        · rw [he]
          refine priorMatch_append h2 ?_
          intro k2 hk2
          simp [sellSubSid] at hk2
        · rw [he, heb]
          exact h3
        · intro k2 hk2
          rw [hc] at hk2
          rw [he, heb]
          exact h4 k2 hk2

/-- C2 (amended): for every strategy-run state reachable under the engine
contract (fresh uuid ids, callbacks only for stamped submitted orders),
every `*Execution` or `*Rejection` event's `submission_id` matches at least
one prior `*Submission` event in the log, every `SellOrderSubmission`
reuses the id of a prior `BuyOrderSubmission` (its originating buy), and
the ids of the `BuyOrderSubmission` events are pairwise distinct.  The
claim's stronger reading — all `*Submission` ids pairwise distinct, and the
match being exactly one — fails, because a sell submission reuses its buy's
id (see the counterexample). -/
theorem submission_id_integrity (s : StratState) (h : Reach s) :
    PriorMatch execRejSid subSid s.event_log ∧
    PriorMatch sellSubSid buySubSid s.event_log ∧
    (buySubSids s.event_log).Nodup :=
  ⟨(inv_of_reach h).1, (inv_of_reach h).2.1, (inv_of_reach h).2.2.1⟩

/-- Witness for `submission_id_integrity`: the state reached by one bar that
fires the buy condition, reached via `Reach.bar` from the initial state. -/
theorem submission_id_integrity_witness :
    PriorMatch execRejSid subSid demoBuyState.event_log ∧
    PriorMatch sellSubSid buySubSid demoBuyState.event_log ∧
    (buySubSids demoBuyState.event_log).Nodup :=
  submission_id_integrity demoBuyState
    (Reach.bar initState demoBuyState (mkBar 0) (true, some "sig")
      (false, none) 7 1 Reach.init (by decide) (by decide))

/-- C2 counterexample: in the concrete run buy-submit, buy-fill, sell-submit,
sell-fill, the sell submission reuses the buy's submission id 7: the ids of
the run's `*Submission` events are `[7, 7]` — not pairwise distinct — and
the final `SellOrderExecution`'s submission id 7 matches two prior
submission events, not exactly one. -/
theorem submission_ids_not_distinct_counterexample :
    subSids (finalState cexInputs).event_log = [7, 7] ∧
    ¬ (subSids (finalState cexInputs).event_log).Nodup ∧
    ((finalState cexInputs).event_log.getLast?.map execRejSid) =
      some (some 7) ∧
    (((finalState cexInputs).event_log.dropLast).filter
        (fun e => subSid e = some 7)).length = 2 := by
  decide

/-- Witness for `order_cleared_after_any_notification` at concrete inputs:
a `Submitted` (intermediate) status callback clears the pending order. -/
theorem order_cleared_after_any_notification_witness :
    ({ initState with order := some ⟨true, some 7, 1⟩ } : StratState).order =
        some ⟨true, some 7, 1⟩ ∧
    ({ initState with order := none } : StratState).order = none :=
  ⟨rfl, order_cleared_after_any_notification.1
    { initState with order := some ⟨true, some 7, 1⟩ } ⟨true, some 7, 1⟩
    .Submitted 0 0 3 { initState with order := none } (by decide)⟩

/-- C1 counterexample: with five requested trials and a backtest that
raises a simulation error on trial 2's parameters (the sampler returns the
trial index), the optimize call returns that propagated error tagged with
trial index 2 — the loop does not continue to completion, no five-trial
aggregator is produced and no best trial is returned. -/
theorem simulation_failure_aborts_search :
    optimize_strategy_params_on_backtest cexSpace (fun i _ => (i : ℚ))
        simFailBacktest 5 =
      .error (.sim "SimulationError: data feed exhausted", 2) := by
  decide

/-- C1 (amended): there is no try/except around a trial: when the objective
of trial `i` raises — in particular when its backtest fails with a
`SimulationError` — the study loop aborts right at trial `i` with that
exception, so no failed-trial record with a sentinel objective is stored
and later trials never run; only when every trial's parameter construction
and backtest succeed does the optimize call return, and then the
aggregator holds exactly `n` trials. -/
theorem simulation_error_propagation :
    (∀ (space : HyperSpace) (sample : Nat → String → ℚ)
        (backtest : List (String × ℚ) → Except String BTOut)
        (m i : Nat) (td : TrialDetails) (vals : List ℚ) (e : OptErr),
      objective space (sample i) backtest td = .error e →
      optimizeLoop space sample backtest (m + 1) i td vals = .error (e, i)) ∧
    (∀ (space : HyperSpace) (sample : Nat → String → ℚ)
        (backtest : List (String × ℚ) → Except String BTOut) (n : Nat),
      (∀ f, ∃ ps, buildTrialParams space f = .ok ps) →
      (∀ ps, ∃ out, backtest ps = .ok out) →
      ∃ td vals,
        optimize_strategy_params_on_backtest space sample backtest n =
          .ok ⟨td, vals, List.range n, bestValue vals⟩ ∧
        td.params.length = n ∧ vals.length = n) := by
  constructor
  · intro space sample backtest m i td vals e h
    simp [optimizeLoop, h]
  · intro space sample backtest n hs hb
    suffices hgen : ∀ (m i : Nat) (td : TrialDetails) (vals : List ℚ),
        ∃ td2 vals2,
          optimizeLoop space sample backtest m i td vals = .ok (td2, vals2) ∧
          td2.params.length = td.params.length + m ∧
          vals2.length = vals.length + m by
      obtain ⟨td2, vals2, hrun, hlen1, hlen2⟩ := hgen n 0 emptyDetails []
      refine ⟨td2, vals2, ?_, ?_, ?_⟩
      · simp [optimize_strategy_params_on_backtest, hrun]
      · simpa [emptyDetails] using hlen1
      · simpa using hlen2
    intro m
    induction m with
    | zero =>
      intro i td vals
      exact ⟨td, vals, rfl, by simp, by simp⟩
    | succ m2 ih =>
      intro i td vals
      have hobj : ∃ td2 v,
          objective space (sample i) backtest td = .ok (td2, v) ∧
          td2.params.length = td.params.length + 1 := by
        obtain ⟨ps, hps⟩ := hs (sample i)
        obtain ⟨out, hout⟩ := hb ps
        refine ⟨{ params := td.params ++ [ps],
                  initial_portfolios :=
                    td.initial_portfolios ++ [out.initial_portfolio],
                  final_portfolios :=
                    td.final_portfolios ++ [out.final_portfolio],
                  returns := td.returns ++
                    [out.final_portfolio - out.initial_portfolio],
                  relative_returns := td.relative_returns ++
                    [(out.final_portfolio - out.initial_portfolio) /
                      out.initial_portfolio] },
                out.final_portfolio - out.initial_portfolio, ?_, ?_⟩
        · simp [objective, hps, hout]
        · simp
      obtain ⟨td2, v, hobj2, hlen⟩ := hobj
      obtain ⟨td3, vals3, hrun3, hl3, hv3⟩ := ih (i + 1) td2 (vals ++ [v])
      refine ⟨td3, vals3, ?_, ?_, ?_⟩
      · simp [optimizeLoop, hobj2, hrun3]
      · omega
      · simp at hv3
        omega

/-- Witness for `simulation_error_propagation`: a single-trial study whose
trial-0 backtest fails aborts at trial 0. -/
theorem simulation_error_propagation_witness :
    optimizeLoop cexSpace (fun _ _ => (2 : ℚ)) simFailBacktest 1 0
        emptyDetails [] =
      .error (.sim "SimulationError: data feed exhausted", 0) :=
  simulation_error_propagation.1 cexSpace (fun _ _ => (2 : ℚ))
    simFailBacktest 0 0 emptyDetails []
    (.sim "SimulationError: data feed exhausted") (by decide)

/-- C8 counterexample: a space whose only entry carries the unknown type
tag "bool" raises no error at all — the parameter is silently dropped and
the single trial runs with an empty parameter assignment; and a space with
min > max raises nothing when zero trials are requested, so no validation
happens before trials start. -/
theorem invalid_space_not_rejected :
    buildTrialParams unknownTagSpace (fun _ => 0) = .ok [] ∧
    (optimize_strategy_params_on_backtest unknownTagSpace (fun _ _ => 0)
        constBacktest 1).toOption.map
        (fun r => (r.trial_details.params, r.trial_numbers)) =
      some ([[]], [0]) ∧
    optimize_strategy_params_on_backtest [("p", ⟨"int", 10, 0, []⟩)]
        (fun _ _ => 0) constBacktest 0 =
      .ok ⟨emptyDetails, [], [], none⟩ := by
  decide

/-- C8 (amended): the parameter space is never validated before the study:
an entry with an unknown type tag is silently skipped in every trial (the
parameter is dropped, no error is raised), while a numeric range with
min > max or an empty categorical choice set raises a `ValueError` inside
the first trial that samples it (trial index 0); that error propagates and
aborts the whole optimize call, and with zero requested trials an invalid
space raises nothing at all. -/
theorem param_space_validation :
    (∀ (name : String) (c : ParamConfig) (f : String → ℚ),
      c.tag ≠ "int" → c.tag ≠ "float" → c.tag ≠ "categorical" →
      buildTrialParams [(name, c)] f = .ok []) ∧
    (∀ (name : String) (lo hi : ℚ) (f : String → ℚ), hi < lo →
      buildTrialParams [(name, ⟨"int", lo, hi, []⟩)] f =
        .error (.config "low > high")) ∧
    (∀ (name : String) (lo hi : ℚ) (f : String → ℚ), hi < lo →
      buildTrialParams [(name, ⟨"float", lo, hi, []⟩)] f =
        .error (.config "low > high")) ∧
    (∀ (name : String) (lo hi : ℚ) (f : String → ℚ),
      buildTrialParams [(name, ⟨"categorical", lo, hi, []⟩)] f =
        .error (.config "empty choices")) ∧
    (∀ (space : HyperSpace) (sample : Nat → String → ℚ)
        (backtest : List (String × ℚ) → Except String BTOut)
        (n : Nat) (e : OptErr),
      buildTrialParams space (sample 0) = .error e →
      optimize_strategy_params_on_backtest space sample backtest (n + 1) =
        .error (e, 0)) ∧
    (∀ (space : HyperSpace) (sample : Nat → String → ℚ)
        (backtest : List (String × ℚ) → Except String BTOut),
      optimize_strategy_params_on_backtest space sample backtest 0 =
        .ok ⟨emptyDetails, [], [], none⟩) := by
  refine ⟨?_, ?_, ?_, ?_, ?_, ?_⟩
  · intro name c f h1 h2 h3
    simp [buildTrialParams, List.foldlM, h1, h2, h3]
  · intro name lo hi f h
    simp [buildTrialParams, List.foldlM, h]
  · intro name lo hi f h
    simp [buildTrialParams, List.foldlM, h]
  · intro name lo hi f
    simp [buildTrialParams, List.foldlM]
  · intro space sample backtest n e h
    simp [optimize_strategy_params_on_backtest, optimizeLoop, objective, h]
  · intro space sample backtest
    rfl

/-- Witness for `param_space_validation`: the unknown tag "str" is dropped
silently and an int range with min 3 > max 1 raises the in-trial error. -/
theorem param_space_validation_witness :
    buildTrialParams [("q", ⟨"str", 0, 1, []⟩)] (fun _ => 0) = .ok [] ∧
    buildTrialParams [("q", ⟨"int", 3, 1, []⟩)] (fun _ => 0) =
      .error (.config "low > high") :=
  ⟨param_space_validation.1 "q" ⟨"str", 0, 1, []⟩ (fun _ => 0)
      (by decide) (by decide) (by decide),
    param_space_validation.2.1 "q" 3 1 (fun _ => 0) (by decide)⟩

/-- Inserting a row with an index below every index of a ranked list keeps
the list ranked: passed-over rows have strictly larger returns, and the
rows at or below the insertion point lose either on return or, at equal
return, on index. -/
lemma orderedInsert_pairwise_rank (a : TrialRow) :
    ∀ s : List TrialRow, s.Pairwise rankStrict → (∀ b ∈ s, a.1 < b.1) →
      (List.orderedInsert retGe a s).Pairwise rankStrict := by
  intro s
  induction s with
  | nil =>
    intro _ _
    simp [List.orderedInsert]
  | cons c t ih =>
    intro hp hidx
    have hp2 := List.pairwise_cons.1 hp
    rw [List.orderedInsert]
    split
    · rename_i hr
      refine List.pairwise_cons.2 ⟨?_, hp⟩
      intro d hd
      rcases List.mem_cons.1 hd with hd | hd
      · subst hd
        rcases eq_or_lt_of_le hr with heq | hlt
        · exact Or.inr ⟨heq.symm, hidx d (List.mem_cons_self d t)⟩
        · exact Or.inl hlt
      · have hcd := hp2.1 d hd
        rcases hcd with hlt2 | ⟨heq2, hidx2⟩
        · exact Or.inl (lt_of_lt_of_le hlt2 hr)
        · rcases eq_or_lt_of_le hr with heq | hlt
          · exact Or.inr ⟨heq.symm.trans heq2,
              hidx d (List.mem_cons_of_mem c hd)⟩
          · exact Or.inl (heq2 ▸ hlt)
    · rename_i hr
      have hr2 : ¬ (c.2 ≤ a.2) := hr
      have hac : a.2 < c.2 := not_le.mp hr2
      refine List.pairwise_cons.2
        ⟨?_, ih hp2.2 (fun b hb => hidx b (List.mem_cons_of_mem c hb))⟩
      intro d hd
      rcases (List.mem_orderedInsert retGe).1 hd with hd | hd
      · subst hd
        exact Or.inl hac
      · exact hp2.1 d hd

/-- The insertion sort under `retGe` of rows listed in ascending
trial-index order is ranked: descending by return, ties broken by
ascending index (stability of the sort). -/
lemma insertionSort_pairwise_rank :
    ∀ rows : List TrialRow, rows.Pairwise idxLt →
      (List.insertionSort retGe rows).Pairwise rankStrict := by
  intro rows
  induction rows with
  | nil =>
    intro _
    simp [List.insertionSort]
  | cons a t ih =>
    intro hp
    have hp2 := List.pairwise_cons.1 hp
    rw [List.insertionSort]
    refine orderedInsert_pairwise_rank a _ (ih hp2.2) ?_
    intro b hb
    have hbmem : b ∈ t := ((List.perm_insertionSort retGe t).mem_iff).1 hb
    exact hp2.1 b hbmem

/-- C6: the ranked view of trial objectives `[5.0, -3.0, 5.0, 10.0]`
submitted in index order yields index order `[3, 0, 2, 1]`; in general the
ranked view is a permutation of the trial rows (no record is created,
dropped or mutated), sorted descending by the return metric, with ties
broken stably by ascending trial index. -/
theorem trial_ranking :
    ((nlargestByReturn demoTrialRows).map Prod.fst = [3, 0, 2, 1]) ∧
    (∀ rows : List TrialRow, (nlargestByReturn rows).Perm rows) ∧
    (∀ rows : List TrialRow, (nlargestByReturn rows).Sorted retGe) ∧
    (∀ rows : List TrialRow, rows.Pairwise idxLt →
      (nlargestByReturn rows).Pairwise rankStrict) := by
  refine ⟨by decide, ?_, ?_, ?_⟩
  · intro rows
    exact List.perm_insertionSort retGe rows
  · intro rows
    exact List.sorted_insertionSort retGe rows
  · intro rows hp
    exact insertionSort_pairwise_rank rows hp

/-- Witness for `trial_ranking`: the example rows are index-sorted, so their
ranked view is strictly ranked. -/
theorem trial_ranking_witness :
    (nlargestByReturn demoTrialRows).Pairwise rankStrict :=
  trial_ranking.2.2.2 demoTrialRows (by decide)

/-- C5 counterexample: under the effective model configuration of
`BaseSchema` (the `ConfigDict(...)` expression is discarded, so pydantic's
non-frozen default applies), assigning to the `timestamp` field of a
constructed event succeeds and changes the field — the record is not
immutable and the attempted assignment neither fails nor leaves it
unchanged. -/
theorem event_mutation_succeeds :
    assignTimestamp BaseSchema_model_config demoEventRec 42 =
      .ok { demoEventRec with timestamp := 42 } ∧
    ({ demoEventRec with timestamp := 42 } : OrderEventRec).timestamp ≠
      demoEventRec.timestamp := by
  decide

/-- C5 (amended): event records are mutable: with the effective (default,
non-frozen) model configuration — the `ConfigDict(validate_assignment=True,
populate_by_name=True)` in the `BaseSchema` body is evaluated and
discarded, never bound to `model_config`, and even it would not set
`frozen` — every field assignment on an event succeeds and updates the
field. -/
theorem event_fields_assignable (e : OrderEventRec) :
    (∀ v, assignTimestamp BaseSchema_model_config e v =
      .ok { e with timestamp := v }) ∧
    (∀ v, assignSubmissionId BaseSchema_model_config e v =
      .ok { e with submission_id := v }) ∧
    (∀ v, assignSize BaseSchema_model_config e v =
      .ok { e with size := v }) ∧
    (∀ v, assignRefPrice BaseSchema_model_config e v =
      .ok { e with ref_price := v }) ∧
    (∀ v, assignJustification BaseSchema_model_config e v =
      .ok { e with justification := v }) := by
  refine ⟨?_, ?_, ?_, ?_, ?_⟩ <;> intro v <;> rfl

/-- Witness for `event_fields_assignable` at a concrete record and value. -/
theorem event_fields_assignable_witness :
    assignSize BaseSchema_model_config demoEventRec 5 =
      .ok { demoEventRec with size := 5 } :=
  (event_fields_assignable demoEventRec).2.2.1 5

/-- C9 counterexample: for a `BuyOrderRejection` whose justification
contains the separator `", "`, the rendering re-splits the joined
attribute text and sorts the fragments, tearing the `name=value` pair
apart — the produced string differs from the class name + ISO timestamp +
sorted `name=value` pairs the claim describes. -/
theorem event_str_fragments_values :
    eventStr "BuyOrderRejection" demoTs commaDump =
      "BuyOrderRejection(t=2024-12-01T00:00:00, a, justification=x, submission_id=5)" ∧
    specEventStr "BuyOrderRejection" demoTs commaDump =
      "BuyOrderRejection(t=2024-12-01T00:00:00, justification=x, a, submission_id=5)" ∧
    eventStr "BuyOrderRejection" demoTs commaDump ≠
      specEventStr "BuyOrderRejection" demoTs commaDump := by
  decide

/-- C9 (amended): the canonical rendering equals the class name, the
ISO-8601 timestamp and the `name=value` fragments of the non-timestamp
fields sorted lexicographically after re-splitting the joined text on
`", "`.  When no rendered value contains `", "` this coincides with the
claimed sorted-by-name pair list, as on the rejection variants below; a
value containing the separator is instead fragmented across the sort. -/
theorem event_str_sorted_fields :
    eventStr "BuyOrderRejection" demoTs plainDump =
      specEventStr "BuyOrderRejection" demoTs plainDump ∧
    eventStr "BuyOrderRejection" demoTs plainDump =
      "BuyOrderRejection(t=2024-12-01T00:00:00, justification=insufficient funds, submission_id=5)" ∧
    eventStr "SellOrderRejection" demoTs
        [("timestamp", .dt demoTs), ("submission_id", .int 12),
         ("justification", PyVal.none_)] =
      "SellOrderRejection(t=2024-12-01T00:00:00, justification=None, submission_id=12)" := by
  decide

end AutoTrader
